import Mathlib

/-!
Verification of the PubChem BioAssay JSON parsing and aggregation utilities
(`PcbaJsonParser` and `PcbaPandasHandler` from `vs_utils/utils/public_data/__init__.py`).

The source is Python 2 operating on `json.load`ed trees.  We embed JSON values as
the inductive `JVal` (objects as ordered association lists with the keys unique,
as produced by `json.load`), and Python's partial operations (subscripting, `len`,
iteration, attribute-style methods) as functions into `Except PyError`, where
`PyError` mirrors the Python exception classes that can escape the code under
verification.
-/

namespace Pcba

/-- A JSON value as produced by `json.load`.  Objects keep the key order of the
document and, coming from a Python `dict`, have pairwise-distinct keys. -/
inductive JVal where
  | null
  | b (v : Bool)
  | i (v : Int)
  | s (v : String)
  | arr (xs : List JVal)
  | obj (fs : List (String × JVal))

/-- Boolean equality on `JVal`, written with structural nested recursion so that
it reduces inside the kernel. -/
def JVal.beq : JVal → JVal → Bool
  | .null, .null => true
  | .b a, .b c => a = c
  | .i a, .i c => a = c
  | .s a, .s c => a = c
  | .arr xs, .arr ys => goA xs ys
  | .obj fs, .obj gs => goO fs gs
  | _, _ => false
where
  goA : List JVal → List JVal → Bool
    | [], [] => true
    | x :: xs, y :: ys => JVal.beq x y && goA xs ys
    | _, _ => false
  goO : List (String × JVal) → List (String × JVal) → Bool
    | [], [] => true
    | (k, x) :: xs, (l, y) :: ys => k = l && JVal.beq x y && goO xs ys
    | _, _ => false

/-- Induction over `JVal` with member-wise hypotheses for the nested lists. -/
theorem JVal.inductionOn {P : JVal → Prop}
    (hnull : P .null) (hb : ∀ v, P (.b v)) (hi : ∀ v, P (.i v)) (hs : ∀ v, P (.s v))
    (harr : ∀ xs, (∀ x ∈ xs, P x) → P (.arr xs))
    (hobj : ∀ fs, (∀ kv ∈ fs, P kv.2) → P (.obj fs)) : ∀ v, P v :=
  @JVal.rec P (fun xs => ∀ x ∈ xs, P x) (fun fs => ∀ kv ∈ fs, P kv.2) (fun kv => P kv.2)
    hnull hb hi hs harr hobj
    (by intro x hx; cases hx)
    (fun hd _ ph pt x hx => by
      rcases List.mem_cons.mp hx with h | h
      · exact h ▸ ph
      · exact pt x h)
    (by intro kv hkv; cases hkv)
    (fun hd _ ph pt kv hkv => by
      rcases List.mem_cons.mp hkv with h | h
      · exact h ▸ ph
      · exact pt kv h)
    (fun _ _ ih => ih)

theorem JVal.goA_iff (xs : List JVal)
    (ih : ∀ x ∈ xs, ∀ b, JVal.beq x b = true ↔ x = b) :
    ∀ ys, JVal.beq.goA xs ys = true ↔ xs = ys := by
  induction xs with
  | nil => intro ys; cases ys <;> simp [JVal.beq.goA]
  | cons x xs ihl =>
    intro ys
    cases ys with
    | nil => simp [JVal.beq.goA]
    | cons y ys =>
      simp only [JVal.beq.goA, Bool.and_eq_true, List.cons.injEq]
      rw [ih x (by simp) y, ihl (fun a ha b => ih a (by simp [ha]) b) ys]

theorem JVal.goO_iff (fs : List (String × JVal))
    (ih : ∀ kv ∈ fs, ∀ b, JVal.beq kv.2 b = true ↔ kv.2 = b) :
    ∀ gs, JVal.beq.goO fs gs = true ↔ fs = gs := by
  induction fs with
  | nil => intro gs; cases gs <;> simp [JVal.beq.goO]
  | cons kv fs ihl =>
    intro gs
    cases gs with
    | nil => simp [JVal.beq.goO]
    | cons lw gs =>
      obtain ⟨k, x⟩ := kv
      obtain ⟨l, y⟩ := lw
      simp only [JVal.beq.goO, Bool.and_eq_true, List.cons.injEq, Prod.mk.injEq,
        decide_eq_true_eq]
      rw [ih (k, x) (by simp) y, ihl (fun a ha b => ih a (by simp [ha]) b) gs]

theorem JVal.beq_iff : ∀ a b : JVal, JVal.beq a b = true ↔ a = b := by
  intro a
  induction a using JVal.inductionOn with
  | hnull => intro b; cases b <;> simp [JVal.beq]
  | hb v => intro b; cases b <;> simp [JVal.beq]
  | hi v => intro b; cases b <;> simp [JVal.beq]
  | hs v => intro b; cases b <;> simp [JVal.beq]
  | harr xs ih =>
    intro b
    cases b <;> simp only [JVal.beq, JVal.goA_iff xs ih] <;> simp
  | hobj fs ih =>
    intro b
    cases b <;> simp only [JVal.beq, JVal.goO_iff fs ih] <;> simp

instance : BEq JVal := ⟨JVal.beq⟩

instance : LawfulBEq JVal where
  eq_of_beq h := (JVal.beq_iff _ _).mp h
  rfl := (JVal.beq_iff _ _).mpr rfl

instance : DecidableEq JVal := fun a b =>
  if h : JVal.beq a b = true then isTrue ((JVal.beq_iff a b).mp h)
  else isFalse (fun he => h ((JVal.beq_iff a b).mpr he))

/-- The Python exceptions that the embedded code can raise. -/
inductive PyError where
  | keyError (k : JVal)
  | indexError
  | typeError (msg : String)
  | attributeError
  | assertionError
  | valueError (msg : String)
deriving DecidableEq

instance {ε α : Type} [DecidableEq ε] [DecidableEq α] : DecidableEq (Except ε α) :=
  fun a b =>
    match a, b with
    | .ok x, .ok y =>
      if h : x = y then isTrue (by rw [h]) else isFalse (by simp [h])
    | .error e, .error f =>
      if h : e = f then isTrue (by rw [h]) else isFalse (by simp [h])
    | .ok _, .error _ => isFalse (by simp)
    | .error _, .ok _ => isFalse (by simp)

/-- `xs.isPrefixOf`-style check on character lists, written out so every use is
structural. -/
def startsWith : List Char → List Char → Bool
  | [], _ => true
  | _ :: _, [] => false
  | a :: as, b :: bs => a = b && startsWith as bs

/-- Python's substring containment `needle in hay` on strings. -/
def hasSub (n : List Char) : List Char → Bool
  | [] => n.isEmpty
  | c :: rest => startsWith n (c :: rest) || hasSub n rest

/-- Python `v[k]` for a string key `k`: dict lookup (KeyError when the key is
absent), TypeError on every non-dict value. -/
def pyIndex (v : JVal) (k : String) : Except PyError JVal :=
  match v with
  | .obj fs =>
    match fs.lookup k with
    | some x => .ok x
    | none => .error (.keyError (.s k))
  | _ => .error (.typeError "value is not subscriptable by a string")

/-- Python `v[n]` for an integer index `n ≥ 0`: list indexing (IndexError when out
of range), one-character string for strings, KeyError for dicts (JSON object keys
are strings, so an integer key is never present), TypeError otherwise. -/
def pyIndexNat (v : JVal) (n : Nat) : Except PyError JVal :=
  match v with
  | .arr xs =>
    match xs.get? n with
    | some x => .ok x
    | none => .error .indexError
  | .s str =>
    match str.data.get? n with
    | some c => .ok (.s (String.mk [c]))
    | none => .error .indexError
  | .obj _ => .error (.keyError (.i n))
  | _ => .error (.typeError "value is not subscriptable by an integer")

/-- Python `len(v)`. -/
def pyLen (v : JVal) : Except PyError Nat :=
  match v with
  | .arr xs => .ok xs.length
  | .obj fs => .ok fs.length
  | .s str => .ok str.length
  | _ => .error (.typeError "object has no len()")

/-- Python iteration `for x in v`: list elements, dict keys, characters of a
string; TypeError otherwise. -/
def pyIter (v : JVal) : Except PyError (List JVal) :=
  match v with
  | .arr xs => .ok xs
  | .obj fs => .ok (fs.map (fun kv => .s kv.1))
  | .s str => .ok (str.data.map (fun c => .s (String.mk [c])))
  | _ => .error (.typeError "object is not iterable")

/-- Python `v.iterkeys()`: only dicts have it (AttributeError otherwise). -/
def pyKeys (v : JVal) : Except PyError (List String) :=
  match v with
  | .obj fs => .ok (fs.map Prod.fst)
  | _ => .error .attributeError

/-- Python `v.iteritems()`. -/
def pyItems (v : JVal) : Except PyError (List (String × JVal)) :=
  match v with
  | .obj fs => .ok fs
  | _ => .error .attributeError

/-- Python `v.itervalues()`. -/
def pyValues (v : JVal) : Except PyError (List JVal) :=
  match v with
  | .obj fs => .ok (fs.map Prod.snd)
  | _ => .error .attributeError

/-- Python `item in v` (`in` operator).  For dicts this is key membership: JSON
object keys are strings, so a non-string item never matches; for strings it is
substring containment and requires a string item. -/
def pyContains (v : JVal) (item : JVal) : Except PyError Bool :=
  match v with
  | .obj fs =>
    match item with
    | .s k => .ok (fs.lookup k).isSome
    | _ => .ok false
  | .arr xs => .ok (xs.contains item)
  | .s hay =>
    match item with
    | .s n => .ok (hasSub n.data hay.data)
    | _ => .error (.typeError "in <string> requires string as left operand")
  | _ => .error (.typeError "argument is not iterable")

/-- The whitespace characters `str.strip()` removes. -/
def isPySpace (c : Char) : Bool :=
  c = ' ' || c = '\t' || c = '\n' || c = '\r' || c = '\x0b' || c = '\x0c'

/-- Remove leading and trailing whitespace from a character list. -/
def trimList (cs : List Char) : List Char :=
  ((cs.dropWhile isPySpace).reverse.dropWhile isPySpace).reverse

/-- Python `s.strip()` on a string. -/
def pyStripStr (s : String) : String := String.mk (trimList s.data)

/-- Python `s.lower()` on a string (ASCII, as in the assay names at stake). -/
def lowerStr (s : String) : String := String.mk (s.data.map Char.toLower)

/-- Python `v.lower()`: only strings have it. -/
def pyLower (v : JVal) : Except PyError String :=
  match v with
  | .s str => .ok (lowerStr str)
  | _ => .error .attributeError

/-- Python `v.strip()`: only strings have it. -/
def pyStrip (v : JVal) : Except PyError String :=
  match v with
  | .s str => .ok (pyStripStr str)
  | _ => .error .attributeError

/-- Hashability: Python lists and dicts cannot be dict keys (TypeError). -/
def hashable (v : JVal) : Bool :=
  match v with
  | .arr _ => false
  | .obj _ => false
  | _ => true

/-- Python `d[k] = v` on a dict represented as an association list: existing key
is overwritten in place, a fresh key is appended. -/
def pyDictSet (d : List (JVal × JVal)) (k v : JVal) : List (JVal × JVal) :=
  if (d.lookup k).isSome then d.map (fun kv => if kv.1 = k then (k, v) else kv)
  else d ++ [(k, v)]

/-- Error-propagating map over a list, written out for easy induction. -/
def mapE (f : α → Except PyError β) : List α → Except PyError (List β)
  | [] => .ok []
  | x :: xs =>
    match f x with
    | .error e => .error e
    | .ok y =>
      match mapE f xs with
      | .error e => .error e
      | .ok ys => .ok (y :: ys)

/-- Error-propagating left fold over a list. -/
def foldE (f : σ → α → Except PyError σ) : σ → List α → Except PyError σ
  | s, [] => .ok s
  | s, x :: xs =>
    match f s x with
    | .error e => .error e
    | .ok s' => foldE f s' xs

/-! ### `PcbaJsonParser.__init__`: envelope resolution

`__init__` first evaluates `self.tree['PC_AssaySubmit']['assay']['descr']` inside
a `try` that catches `KeyError` only; on a `KeyError` anywhere along that path it
evaluates `assert len(self.tree['PC_AssayContainer']) == 1` and then
`self.tree['PC_AssayContainer'][0]['assay']['descr']`, with every error of that
second branch escaping.  (File reading and the extension `ValueError` belong to
the excluded loader.) -/

/-- The FTP ("submission") shape: `tree['PC_AssaySubmit']['assay']['descr']`. -/
def submitDescr (tree : JVal) : Except PyError JVal := do
  let a ← pyIndex tree "PC_AssaySubmit"
  let b ← pyIndex a "assay"
  pyIndex b "descr"

/-- The REST ("container") shape: asserts exactly one container entry, then
`tree['PC_AssayContainer'][0]['assay']['descr']`. -/
def containerDescr (tree : JVal) : Except PyError JVal := do
  let c ← pyIndex tree "PC_AssayContainer"
  let n ← pyLen c
  if n = 1 then do
    let entry ← pyIndexNat c 0
    let a ← pyIndex entry "assay"
    pyIndex a "descr"
  else .error .assertionError

/-- Envelope resolution of `PcbaJsonParser.__init__`: the submission shape inside
`try`, falling back to the container shape only on a `KeyError`. -/
def resolveRoot (tree : JVal) : Except PyError JVal :=
  match submitDescr tree with
  | .ok r => .ok r
  | .error (.keyError _) => containerDescr tree
  | .error e => .error e

/-! ### `PcbaJsonParser` field accessors over the resolved `root` -/

/-- `get_name`: `self.root['name']`. -/
def get_name (root : JVal) : Except PyError JVal :=
  pyIndex root "name"

/-- `get_aid`: `self.root["aid"]["id"]`. -/
def get_aid (root : JVal) : Except PyError JVal := do
  let a ← pyIndex root "aid"
  pyIndex a "id"

/-- `get_activity_outcome_method`: presence-checked; when present, the stored
value is replaced by the literal `"counterscreen"` whenever the lowercased assay
name contains `"counter"`. -/
def get_activity_outcome_method (root : JVal) : Except PyError JVal := do
  let present ← pyContains root (.s "activity_outcome_method")
  if present then do
    let method ← pyIndex root "activity_outcome_method"
    let nm ← get_name root
    let low ← pyLower nm
    if hasSub "counter".data low.data then .ok (.s "counterscreen")
    else .ok method
  else .ok .null

/-- `'\n'.join([line.strip() for line in xs])` over the elements of a JSON
list: each element must be a string (`.strip()` raises `AttributeError`
otherwise). -/
def stripJoin (xs : List JVal) : Except PyError JVal := do
  let ss ← mapE pyStrip xs
  .ok (.s (String.intercalate "\n" ss))

/-- The shared `isinstance(v, list)` branch of `get_description`, `get_protocol`
and `get_comment`: join a list of lines, return anything else verbatim. -/
def joinIfList (v : JVal) : Except PyError JVal :=
  match v with
  | .arr xs => stripJoin xs
  | _ => .ok v

/-- `get_description`: `self.root['description']`, joined when it is a list. -/
def get_description (root : JVal) : Except PyError JVal := do
  let d ← pyIndex root "description"
  joinIfList d

/-- `get_protocol`: `self.root['protocol']`, joined when it is a list. -/
def get_protocol (root : JVal) : Except PyError JVal := do
  let p ← pyIndex root "protocol"
  joinIfList p

/-- `get_target`: presence-checked, verbatim. -/
def get_target (root : JVal) : Except PyError JVal := do
  let present ← pyContains root (.s "target")
  if present then pyIndex root "target" else .ok .null

/-- `get_comment`: presence-checked; joined when it is a list. -/
def get_comment (root : JVal) : Except PyError JVal := do
  let present ← pyContains root (.s "comment")
  if present then do
    let c ← pyIndex root "comment"
    joinIfList c
  else .ok .null

/-- `get_results`: presence-checked, verbatim. -/
def get_results (root : JVal) : Except PyError JVal := do
  let present ← pyContains root (.s "results")
  if present then pyIndex root "results" else .ok .null

/-- `get_revision`: presence-checked, verbatim. -/
def get_revision (root : JVal) : Except PyError JVal := do
  let present ← pyContains root (.s "revision")
  if present then pyIndex root "revision" else .ok .null

/-! ### `PcbaJsonParser.get_data`

The column labels of the dataframe start as the keys of `data[0]` other than
`'data'` (strings) and then take `field['name']` of every entry of
`self.get_results()` — arbitrary JSON values, so the column list is a
`List JVal`.  Rows are the Python `point` dicts, whose keys mix the generic
string keys with those result names. -/

/-- `field['name']` of a result-field definition. -/
def fieldName (f : JVal) : Except PyError JVal :=
  pyIndex f "name"

/-- The result-field loop of `get_data` (lines building `columns` and `tids`):
`assert name not in columns`, append the name, record `tids[field['tid']] = name`
(a list or dict `tid` is unhashable — `TypeError`). -/
def buildCols (cols : List JVal) (tids : List (JVal × JVal)) :
    List JVal → Except PyError (List JVal × List (JVal × JVal))
  | [] => .ok (cols, tids)
  | f :: rest =>
    match fieldName f with
    | .error e => .error e
    | .ok name =>
      if cols.contains name then .error .assertionError
      else
        match pyIndex f "tid" with
        | .error e => .error e
        | .ok tid =>
          if hashable tid then buildCols (cols ++ [name]) (pyDictSet tids tid name) rest
          else .error (.typeError "unhashable type")

/-- One entry of a point's `data` array: `col_name = tids[col['tid']]`,
`assert len(col['value']) == 1`, then
`for col_value in col['value'].itervalues(): point[col_name] = col_value`. -/
def processEntry (tids : List (JVal × JVal)) (point : List (JVal × JVal))
    (col : JVal) : Except PyError (List (JVal × JVal)) := do
  let tid ← pyIndex col "tid"
  if hashable tid then
    match tids.lookup tid with
    | none => .error (.keyError tid)
    | some colName => do
      let v ← pyIndex col "value"
      let n ← pyLen v
      if n = 1 then do
        let vals ← pyValues v
        foldE (fun pt cv =>
          if hashable colName then .ok (pyDictSet pt colName cv)
          else .error (.typeError "unhashable type")) point vals
      else .error .assertionError
  else .error (.typeError "unhashable type")

/-- One key/value pair of a raw point: the `'data'` key expands into its entries,
every other key is copied verbatim (string keys are always hashable). -/
def procItem (tids : List (JVal × JVal)) (point : List (JVal × JVal))
    (k : String) (v : JVal) : Except PyError (List (JVal × JVal)) :=
  if k = "data" then do
    let entries ← pyIter v
    foldE (processEntry tids) point entries
  else .ok (pyDictSet point (.s k) v)

/-- The `point` dict built from one raw data point (`for key, value in
dp.iteritems(): ...`). -/
def buildPoint (tids : List (JVal × JVal)) (dp : JVal) :
    Except PyError (List (JVal × JVal)) := do
  let items ← pyItems dp
  foldE (fun pt kv => procItem tids pt kv.1 kv.2) [] items

/-- A pandas dataframe, to the extent `get_data` observes it: the column labels
and the appended row dicts, in order. -/
structure DataFrame where
  columns : List JVal
  rows : List (List (JVal × JVal))
deriving DecidableEq

/-- `df.append(series)` adds a column for any row key outside the declared
columns, so `np.array_equal(df.columns.values, columns)` holds exactly when
every key of every appended dict is a declared column. -/
def allKeysIn (columns : List JVal) (rows : List (List (JVal × JVal))) : Bool :=
  rows.all (fun r => r.all (fun kv => columns.contains kv.1))

/-- `tree['PC_AssaySubmit']['data']`, the expression guarded by
`try ... except KeyError` at the top of `get_data`. -/
def submitData (tree : JVal) : Except PyError JVal := do
  let a ← pyIndex tree "PC_AssaySubmit"
  pyIndex a "data"

/-- Body of `get_data` once the raw `data` section has been found. -/
def getDataBody (data root : JVal) : Except PyError DataFrame := do
  let first ← pyIndexNat data 0
  let ks ← pyKeys first
  let res ← get_results root
  let fields ← pyIter res
  let ct ← buildCols ((ks.filter (fun k => k ≠ "data")).map JVal.s) [] fields
  let pts ← pyIter data
  let series ← mapE (buildPoint ct.2) pts
  let dataLen ← pyLen data
  if series.length = dataLen then
    if allKeysIn ct.1 series then .ok ⟨ct.1, series⟩
    else .error .assertionError
  else .error .assertionError

/-- `get_data`: returns `None` when the `PC_AssaySubmit.data` path raises
`KeyError`; otherwise normalizes the raw points into a dataframe. -/
def get_data (tree root : JVal) : Except PyError (Option DataFrame) :=
  match submitData tree with
  | .ok data => (getDataBody data root).map some
  | .error (.keyError _) => .ok none
  | .error e => .error e

/-! ### `PcbaPandasHandler`

The summary dataframe is modelled as its (label, row) pairs plus the positional
counter `self.index`.  `self.df['aid'].astype(int)` at construction acts on the
still-empty frame only: `df.loc[self.index] = pd.Series(row)` enlarges the frame
with the row's values verbatim, upcasting the column dtype as needed and raising
nothing, so the cast leaves no per-row check behind. -/

/-- One row of the summary dataframe: the seven fields `add_dataset` collects. -/
structure SummaryRow where
  name : JVal
  aid : JVal
  activity_outcome_method : JVal
  description : JVal
  comment : JVal
  results : JVal
  revision : JVal
deriving DecidableEq

/-- The handler state: `self.index` and the dataframe's labelled rows. -/
structure Handler where
  index : Nat
  rows : List (Nat × SummaryRow)
deriving DecidableEq

/-- `PcbaPandasHandler.__init__`: empty frame, counter at zero. -/
def Handler.init : Handler := ⟨0, []⟩

/-- `df.loc[i] = row`: overwrite the row labelled `i` if it exists, else append
a new row with that label. -/
def locSet (rows : List (Nat × SummaryRow)) (i : Nat) (r : SummaryRow) :
    List (Nat × SummaryRow) :=
  if (rows.lookup i).isSome then rows.map (fun p => if p.1 = i then (i, r) else p)
  else rows ++ [(i, r)]

/-- The `row` dict of `add_dataset`, in source order (note: `get_protocol` is
not among the seven). -/
def buildRow (root : JVal) : Except PyError SummaryRow := do
  let nm ← get_name root
  let aid ← get_aid root
  let aom ← get_activity_outcome_method root
  let desc ← get_description root
  let cmt ← get_comment root
  let res ← get_results root
  let rev ← get_revision root
  .ok ⟨nm, aid, aom, desc, cmt, res, rev⟩

/-- `add_dataset`: parses the document and fills `row`, then — only after every
accessor has succeeded — mutates the frame (`self.df.loc[self.index] = ...`) and
increments `self.index`.  The returned pair is (state after the call, outcome);
on an exception the state is the entry state because both mutations come last in
the source. -/
def add_dataset (h : Handler) (tree : JVal) : Handler × Except PyError Unit :=
  match (do let root ← resolveRoot tree; buildRow root : Except PyError SummaryRow) with
  | .error e => (h, .error e)
  | .ok row => (⟨h.index + 1, locSet h.rows h.index row⟩, .ok ())

/-- `get_dataset`: `self.df.loc[index]`, a `KeyError` for an absent label. -/
def get_dataset (h : Handler) (i : Nat) : Except PyError SummaryRow :=
  match h.rows.lookup i with
  | some r => .ok r
  | none => .error (.keyError (.i i))

/-- The labels of the summary frame are exactly `0, 1, …, index-1` in order;
holds initially and is preserved by `add_dataset`. -/
def wellFormed (h : Handler) : Prop :=
  h.rows.map Prod.fst = List.range h.index

/-! ### General lemmas about the embedding -/

@[simp] theorem ok_bind {α β : Type} (a : α) (f : α → Except PyError β) :
    (Except.ok a >>= f) = f a := rfl

@[simp] theorem error_bind {α β : Type} (e : PyError) (f : α → Except PyError β) :
    ((Except.error e : Except PyError α) >>= f) = .error e := rfl

theorem bind_ok_inv {α β : Type} {x : Except PyError α} {f : α → Except PyError β}
    {b : β} (h : (x >>= f) = .ok b) : ∃ a, x = .ok a ∧ f a = .ok b := by
  cases x with
  | ok a => exact ⟨a, rfl, h⟩
  | error e => exact Except.noConfusion h

theorem map_some_ok_inv {x : Except PyError DataFrame} {df : DataFrame}
    (h : x.map some = .ok (some df)) : x = .ok df := by
  cases x with
  | ok d => simpa [Except.map] using h
  | error e => exact Except.noConfusion h

theorem mapE_ok_length {α β : Type} {f : α → Except PyError β} :
    ∀ {xs : List α} {ys : List β}, mapE f xs = .ok ys → ys.length = xs.length := by
  intro xs
  induction xs with
  | nil => intro ys h; cases h; rfl
  | cons x xs ih =>
    intro ys h
    unfold mapE at h
    cases hx : f x with
    | error e => rw [hx] at h; exact Except.noConfusion h
    | ok y =>
      rw [hx] at h
      cases hs : mapE f xs with
      | error e => rw [hs] at h; exact Except.noConfusion h
      | ok ys' =>
        rw [hs] at h
        cases h
        simp [ih hs]

theorem mapE_error_of_mem {α β : Type} {f : α → Except PyError β} :
    ∀ {xs : List α} {x : α} {e : PyError}, x ∈ xs → f x = .error e →
      ∃ e', mapE f xs = .error e' := by
  intro xs
  induction xs with
  | nil => intro x e hx; cases hx
  | cons y ys ih =>
    intro x e hx hfx
    rcases List.mem_cons.mp hx with h | h
    · subst h
      exact ⟨e, by simp [mapE, hfx]⟩
    · cases hy : f y with
      | error e' => exact ⟨e', by simp [mapE, hy]⟩
      | ok v =>
        obtain ⟨e', he'⟩ := ih h hfx
        exact ⟨e', by simp [mapE, hy, he']⟩

theorem mapE_strip (ss : List String) :
    mapE pyStrip (ss.map JVal.s) = .ok (ss.map pyStripStr) := by
  induction ss with
  | nil => rfl
  | cons s ss ih => simp [mapE, pyStrip, ih]

theorem lookup_eq_none_of_not_mem {β : Type} :
    ∀ {rows : List (Nat × β)} {i : Nat},
      i ∉ rows.map Prod.fst → rows.lookup i = none := by
  intro rows
  induction rows with
  | nil => intro i _; rfl
  | cons p ps ih =>
    intro i hi
    simp only [List.map_cons, List.mem_cons] at hi
    push_neg at hi
    have : (i == p.1) = false := by simp [hi.1]
    simp [List.lookup, this, ih hi.2]

theorem lookup_append_last {β : Type} {rows : List (Nat × β)} {i : Nat}
    (h : rows.lookup i = none) (r : β) : (rows ++ [(i, r)]).lookup i = some r := by
  induction rows with
  | nil => simp [List.lookup]
  | cons p ps ih =>
    simp only [List.lookup] at h ⊢
    cases hb : (i == p.1) with
    | true => rw [hb] at h; exact Option.noConfusion h
    | false => rw [hb] at h; simpa using ih h

theorem lookup_append_other {β : Type} {i j : Nat} (hne : j ≠ i) :
    ∀ (rows : List (Nat × β)) (r : β), (rows ++ [(i, r)]).lookup j = rows.lookup j := by
  intro rows r
  have hji : (j == i) = false := by simp [hne]
  induction rows with
  | nil => simp [List.lookup, hji]
  | cons p ps ih =>
    simp only [List.cons_append, List.lookup]
    cases hb : (j == p.1) with
    | true => rfl
    | false => exact ih

theorem contains_iff_mem {l : List JVal} {a : JVal} : l.contains a = true ↔ a ∈ l := by
  induction l with
  | nil => simp
  | cons x xs ih =>
    simp only [List.contains_cons, Bool.or_eq_true, beq_iff_eq, List.mem_cons, ih]

/-- What a successful `buildCols` run yields: the extracted names in order,
appended to the incoming columns, with the assertion guaranteeing that the new
names are mutually distinct and fresh. -/
theorem buildCols_ok :
    ∀ {fields : List JVal} {cols : List JVal} {tids : List (JVal × JVal)}
      {cols' : List JVal} {tids' : List (JVal × JVal)},
      buildCols cols tids fields = .ok (cols', tids') →
      ∃ ns, mapE fieldName fields = .ok ns ∧ cols' = cols ++ ns ∧
        ns.Nodup ∧ ∀ n ∈ ns, n ∉ cols := by
  intro fields
  induction fields with
  | nil =>
    intro cols tids cols' tids' h
    cases h
    exact ⟨[], rfl, by simp, List.nodup_nil, by simp⟩
  | cons f rest ih =>
    intro cols tids cols' tids' h
    unfold buildCols at h
    split at h
    · exact Except.noConfusion h
    next name hn =>
    split at h
    · exact Except.noConfusion h
    next hc =>
    split at h
    · exact Except.noConfusion h
    next tid ht =>
    split at h
    next hh =>
      obtain ⟨ns, hmap, hcols, hnd, hfresh⟩ := ih h
      have hnotmem : name ∉ cols := fun hmem => hc (contains_iff_mem.mpr hmem)
      refine ⟨name :: ns, by simp [mapE, hn, hmap], by simp [hcols], ?_, ?_⟩
      · refine List.nodup_cons.mpr ⟨fun hmem => ?_, hnd⟩
        have := hfresh name hmem
        simp at this
      · intro n hn'
        rcases List.mem_cons.mp hn' with h' | h'
        · exact h' ▸ hnotmem
        · intro hmem
          exact hfresh n h' (by simp [hmem])
    next => exact Except.noConfusion h

/-! ### Concrete example documents for witnesses -/

/-- A small submission-shaped record: one declared result field `score` with
`tid = 1`. -/
def exDescr : JVal := .obj [
  ("name", .s "Primary screen"),
  ("results", .arr [.obj [("tid", .i 1), ("name", .s "score")]])]

/-- First raw data point. -/
def pt1 : JVal := .obj [("sid", .i 11),
  ("data", .arr [.obj [("tid", .i 1), ("value", .obj [("fval", .i 42)])]])]

/-- Second raw data point. -/
def pt2 : JVal := .obj [("sid", .i 12),
  ("data", .arr [.obj [("tid", .i 1), ("value", .obj [("fval", .i 7)])]])]

/-- A full submission document with two data points. -/
def exTree : JVal := .obj [
  ("PC_AssaySubmit", .obj [
    ("assay", .obj [("descr", exDescr)]),
    ("data", .arr [pt1, pt2])])]

/-- The dataframe `get_data` produces for `exTree`. -/
def exDF : DataFrame :=
  ⟨[.s "sid", .s "score"],
   [[(.s "sid", .i 11), (.s "score", .i 42)],
    [(.s "sid", .i 12), (.s "score", .i 7)]]⟩

/-- A record whose result definitions share the name `score`. -/
def dupDescr : JVal := .obj [
  ("name", .s "dup"),
  ("results", .arr [.obj [("tid", .i 1), ("name", .s "score")],
                    .obj [("tid", .i 2), ("name", .s "score")]])]

/-- A document carrying `dupDescr` and one raw point. -/
def dupTree : JVal := .obj [
  ("PC_AssaySubmit", .obj [
    ("assay", .obj [("descr", dupDescr)]),
    ("data", .arr [pt1])])]

/-- A container-shaped document holding two assay entries. -/
def twoTree : JVal := .obj [("PC_AssayContainer", .arr [.obj [], .obj []])]

/-- A document whose stored aid is the (non-integral) string `"five"`. -/
def strAidTree : JVal := .obj [("PC_AssaySubmit", .obj [("assay", .obj [("descr", .obj [
  ("name", .s "assay one"), ("aid", .obj [("id", .s "five")]),
  ("description", .s "d"), ("protocol", .s "p")])])])]

/-- A document with an integral aid, suitable for a successful `add_dataset`. -/
def intAidTree : JVal := .obj [("PC_AssaySubmit", .obj [("assay", .obj [("descr", .obj [
  ("name", .s "demo"), ("aid", .obj [("id", .i 7)]),
  ("description", .s "d")])])])]

/-! ### Claim theorems -/

/-- C1: on a resolved record (a JSON object) with a stored
`activity_outcome_method`, the accessor returns the literal `"counterscreen"`
whenever the assay name contains `"counter"` case-insensitively, the stored
value verbatim otherwise, and the null sentinel when the field is absent. -/
theorem activity_outcome_method_spec :
    (∀ fs m nm, (fs.lookup "activity_outcome_method") = some m →
      get_name (.obj fs) = .ok (.s nm) →
      (hasSub "counter".data (lowerStr nm).data = true →
        get_activity_outcome_method (.obj fs) = .ok (.s "counterscreen")) ∧
      (hasSub "counter".data (lowerStr nm).data = false →
        get_activity_outcome_method (.obj fs) = .ok m)) ∧
    (∀ fs, (fs.lookup "activity_outcome_method") = none →
      get_activity_outcome_method (.obj fs) = .ok .null) := by
  constructor
  · intro fs m nm hm hnm
    have hc : pyContains (.obj fs) (.s "activity_outcome_method") = .ok true := by
      simp [pyContains, hm]
    have hidx : pyIndex (.obj fs) "activity_outcome_method" = .ok m := by
      simp [pyIndex, hm]
    constructor <;> intro hsub <;>
      simp [get_activity_outcome_method, hc, hidx, hnm, pyLower, hsub]
  · intro fs hm
    have hc : pyContains (.obj fs) (.s "activity_outcome_method") = .ok false := by
      simp [pyContains, hm]
    simp [get_activity_outcome_method, hc]

/-- C1 witness: a record named `"My CounterScreen"` with stored method
`"confirmatory"` yields `"counterscreen"`. -/
theorem activity_outcome_method_spec_witness :
    get_activity_outcome_method (.obj [("name", .s "My CounterScreen"),
      ("activity_outcome_method", .s "confirmatory")]) = .ok (.s "counterscreen") :=
  (activity_outcome_method_spec.1
    [("name", .s "My CounterScreen"), ("activity_outcome_method", .s "confirmatory")]
    (.s "confirmatory") "My CounterScreen" (by decide) (by decide)).1 (by decide)

/-- C3: resolution tries the submission path first and returns its value when it
succeeds; only on a `KeyError` along that path does it run the container branch;
a container with `≠ 1` entries fails the assertion; a document with neither key
fails with the container `KeyError` rather than producing a record. -/
theorem resolveRoot_spec :
    (∀ tree r, submitDescr tree = .ok r → resolveRoot tree = .ok r) ∧
    (∀ tree k, submitDescr tree = .error (.keyError k) →
      resolveRoot tree = containerDescr tree) ∧
    (∀ tree k xs, submitDescr tree = .error (.keyError k) →
      pyIndex tree "PC_AssayContainer" = .ok (.arr xs) → xs.length ≠ 1 →
      resolveRoot tree = .error .assertionError) ∧
    (∀ fs k, submitDescr (.obj fs) = .error (.keyError k) →
      fs.lookup "PC_AssayContainer" = none →
      resolveRoot (.obj fs) = .error (.keyError (.s "PC_AssayContainer"))) := by
  refine ⟨?_, ?_, ?_, ?_⟩
  · intro tree r h
    simp [resolveRoot, h]
  · intro tree k h
    simp [resolveRoot, h]
  · intro tree k xs h hc hlen
    simp [resolveRoot, h, containerDescr, hc, pyLen, hlen]
  · intro fs k h1 h2
    simp [resolveRoot, h1, containerDescr, pyIndex, h2]

/-- C3 witness: a container document with two entries fails with the
assertion error. -/
theorem resolveRoot_spec_witness :
    resolveRoot twoTree = .error .assertionError :=
  resolveRoot_spec.2.2.1 twoTree (.s "PC_AssaySubmit") [.obj [], .obj []]
    (by decide) (by decide) (by decide)

/-- C4: `description`, `protocol` and `comment` stored as a list of line strings
are joined with `"\n"` after stripping each line; stored as a single string they
are returned verbatim. -/
theorem line_join_spec :
    (∀ fs (ss : List String), fs.lookup "description" = some (.arr (ss.map JVal.s)) →
      get_description (.obj fs) = .ok (.s (String.intercalate "\n" (ss.map pyStripStr)))) ∧
    (∀ fs v, fs.lookup "description" = some (.s v) →
      get_description (.obj fs) = .ok (.s v)) ∧
    (∀ fs (ss : List String), fs.lookup "protocol" = some (.arr (ss.map JVal.s)) →
      get_protocol (.obj fs) = .ok (.s (String.intercalate "\n" (ss.map pyStripStr)))) ∧
    (∀ fs v, fs.lookup "protocol" = some (.s v) →
      get_protocol (.obj fs) = .ok (.s v)) ∧
    (∀ fs (ss : List String), fs.lookup "comment" = some (.arr (ss.map JVal.s)) →
      get_comment (.obj fs) = .ok (.s (String.intercalate "\n" (ss.map pyStripStr)))) ∧
    (∀ fs v, fs.lookup "comment" = some (.s v) →
      get_comment (.obj fs) = .ok (.s v)) := by
  refine ⟨?_, ?_, ?_, ?_, ?_, ?_⟩
  · intro fs ss h
    simp [get_description, pyIndex, h, joinIfList, stripJoin, mapE_strip]
  · intro fs v h
    simp [get_description, pyIndex, h, joinIfList]
  · intro fs ss h
    simp [get_protocol, pyIndex, h, joinIfList, stripJoin, mapE_strip]
  · intro fs v h
    simp [get_protocol, pyIndex, h, joinIfList]
  · intro fs ss h
    have hc : pyContains (.obj fs) (.s "comment") = .ok true := by
      simp [pyContains, h]
    simp [get_comment, hc, pyIndex, h, joinIfList, stripJoin, mapE_strip]
  · intro fs v h
    have hc : pyContains (.obj fs) (.s "comment") = .ok true := by
      simp [pyContains, h]
    simp [get_comment, hc, pyIndex, h, joinIfList]

/-- C4 witness: the sequence `["  a  ", "b"]` yields exactly `"a\nb"`. -/
theorem line_join_spec_witness :
    get_description (.obj [("description", .arr [.s "  a  ", .s "b"])]) = .ok (.s "a\nb") := by
  have h := line_join_spec.1 [("description", .arr [.s "  a  ", .s "b"])] ["  a  ", "b"]
    (by decide)
  simpa using h

/-- C10: when the document has no `PC_AssaySubmit` key (every container/REST
document) or no `data` key under it, `get_data` returns `None` — for every
`root`, i.e. before the result definitions are ever consulted. -/
theorem get_data_none_spec :
    (∀ fs root, fs.lookup "PC_AssaySubmit" = none →
      get_data (.obj fs) root = .ok none) ∧
    (∀ fs gs root, fs.lookup "PC_AssaySubmit" = some (.obj gs) →
      gs.lookup "data" = none → get_data (.obj fs) root = .ok none) := by
  constructor
  · intro fs root h
    have hsub : submitData (.obj fs) = .error (.keyError (.s "PC_AssaySubmit")) := by
      simp [submitData, pyIndex, h]
    simp [get_data, hsub]
  · intro fs gs root h1 h2
    have hsub : submitData (.obj fs) = .error (.keyError (.s "data")) := by
      simp [submitData, pyIndex, h1, h2]
    simp [get_data, hsub]

/-- C10 witness: the empty document normalizes to `None` whatever the record. -/
theorem get_data_none_spec_witness :
    get_data (.obj []) .null = .ok none :=
  get_data_none_spec.1 [] .null (by decide)

/-- C7: a failing `add_dataset` leaves the summary table exactly as it was —
both mutations (`df.loc[...] = ...`, `index += 1`) come after every fallible
accessor, so no partial row is ever appended. -/
theorem add_dataset_error_spec :
    ∀ h tree h' e, add_dataset h tree = (h', .error e) →
      h'.rows = h.rows ∧ h'.index = h.index := by
  intro h tree h' e hadd
  unfold add_dataset at hadd
  split at hadd
  · cases hadd; exact ⟨rfl, rfl⟩
  · cases hadd

/-- C7 witness: applying the theorem to a document that fails resolution. -/
theorem add_dataset_error_spec_witness :
    Handler.init.rows = Handler.init.rows ∧ Handler.init.index = Handler.init.index :=
  add_dataset_error_spec Handler.init .null Handler.init
    (.typeError "value is not subscriptable by a string") (by decide)

/-- Integrality of a stored aid value. -/
def isIntegral (v : JVal) : Bool :=
  match v with
  | .i _ => true
  | _ => false

/-- C5 (code bug): `self.df['aid'].astype(int)` acts once, on the empty frame;
`add_dataset` never re-checks, so a document whose aid is the string `"five"`
is added successfully and the stored aid is not integral — no `TypeError` is
raised, contradicting the intent of the `# force AID to int` comment. -/
theorem aid_not_forced_to_int :
    (add_dataset Handler.init strAidTree).2 = .ok () ∧
    (add_dataset Handler.init strAidTree).1.rows.map (fun p => isIntegral p.2.aid)
      = [false] := by
  constructor <;> decide

/-- The labels below `index` are untouched by a fresh append. -/
theorem wellFormed_fresh {h : Handler} (hw : wellFormed h) :
    h.rows.lookup h.index = none := by
  refine lookup_eq_none_of_not_mem ?_
  rw [hw]
  simp

/-- C6: a successful `add_dataset` appends exactly one row, built by the seven
accessors, at label `index`; the counter advances by one, older rows are
unchanged, and `get_dataset index` returns the new row. -/
theorem add_dataset_ok_spec :
    ∀ h tree h', wellFormed h → add_dataset h tree = (h', .ok ()) →
      ∃ root row, resolveRoot tree = .ok root ∧ buildRow root = .ok row ∧
        h'.index = h.index + 1 ∧ h'.rows = h.rows ++ [(h.index, row)] ∧
        wellFormed h' ∧ get_dataset h' h.index = .ok row ∧
        ∀ j, j < h.index → get_dataset h' j = get_dataset h j := by
  intro h tree h' hw hadd
  unfold add_dataset at hadd
  split at hadd
  · cases hadd
  next row hrow =>
    obtain ⟨root, hroot, hbuild⟩ := bind_ok_inv hrow
    cases hadd
    have hfresh := wellFormed_fresh hw
    have hloc : locSet h.rows h.index row = h.rows ++ [(h.index, row)] := by
      simp [locSet, hfresh]
    refine ⟨root, row, hroot, hbuild, rfl, hloc, ?_, ?_, ?_⟩
    · show (locSet h.rows h.index row).map Prod.fst = List.range (h.index + 1)
      rw [hloc]
      simp [wellFormed] at hw
      simp [hw, List.range_succ]
    · show get_dataset ⟨h.index + 1, locSet h.rows h.index row⟩ h.index = .ok row
      simp [get_dataset, hloc, lookup_append_last hfresh]
    · intro j hj
      show get_dataset ⟨h.index + 1, locSet h.rows h.index row⟩ j = get_dataset h j
      simp [get_dataset, hloc, lookup_append_other (Nat.ne_of_lt hj) h.rows row]

/-- The summary row `add_dataset` builds from `intAidTree`. -/
def demoRow : SummaryRow := ⟨.s "demo", .i 7, .null, .s "d", .null, .null, .null⟩

/-- The handler state after adding `intAidTree` to the empty table. -/
def demoHandler : Handler := ⟨1, [(0, demoRow)]⟩

/-- C6 witness: adding `intAidTree` to the empty table puts one row, with the
stored aid `7`, at label `0`. -/
theorem add_dataset_ok_spec_witness :
    ∃ root row, resolveRoot intAidTree = .ok root ∧ buildRow root = .ok row ∧
      demoHandler.index = Handler.init.index + 1 ∧
      demoHandler.rows = Handler.init.rows ++ [(Handler.init.index, row)] ∧
      wellFormed demoHandler ∧
      get_dataset demoHandler Handler.init.index = .ok row ∧
      ∀ j, j < Handler.init.index →
        get_dataset demoHandler j = get_dataset Handler.init j :=
  add_dataset_ok_spec Handler.init intAidTree demoHandler rfl (by decide)

@[simp] theorem map_ok {α β : Type} (f : α → β) (a : α) :
    (Except.ok a : Except PyError α).map f = .ok (f a) := rfl

@[simp] theorem map_error {α β : Type} (f : α → β) (e : PyError) :
    (Except.error e : Except PyError α).map f = .error e := rfl

/-- C2: a successful normalization yields one output row per input point, in
input order (`mapE` of the per-point builder), and its realized column list is
exactly the non-`data` keys of the first raw point followed by the declared
result-field names. -/
theorem normalize_shape_spec :
    ∀ tree root pts df, submitData tree = .ok (.arr pts) →
      get_data tree root = .ok (some df) →
      df.rows.length = pts.length ∧
      ∃ first ks res fields names tids,
        pyIndexNat (.arr pts) 0 = .ok first ∧
        pyKeys first = .ok ks ∧
        get_results root = .ok res ∧
        pyIter res = .ok fields ∧
        mapE fieldName fields = .ok names ∧
        df.columns = (ks.filter (fun k => k ≠ "data")).map JVal.s ++ names ∧
        buildCols ((ks.filter (fun k => k ≠ "data")).map JVal.s) [] fields
          = .ok (df.columns, tids) ∧
        mapE (buildPoint tids) pts = .ok df.rows ∧
        allKeysIn df.columns df.rows = true := by
  intro tree root pts df hsub hgd
  unfold get_data at hgd
  rw [hsub] at hgd
  have hbody : getDataBody (.arr pts) root = .ok df := map_some_ok_inv hgd
  unfold getDataBody at hbody
  obtain ⟨first, h1, hbody⟩ := bind_ok_inv hbody
  obtain ⟨ks, h2, hbody⟩ := bind_ok_inv hbody
  obtain ⟨res, h3, hbody⟩ := bind_ok_inv hbody
  obtain ⟨fields, h4, hbody⟩ := bind_ok_inv hbody
  obtain ⟨ct, h5, hbody⟩ := bind_ok_inv hbody
  obtain ⟨pts', h6, hbody⟩ := bind_ok_inv hbody
  simp only [pyIter, Except.ok.injEq] at h6
  subst h6
  obtain ⟨series, h7, hbody⟩ := bind_ok_inv hbody
  obtain ⟨dataLen, h8, hbody⟩ := bind_ok_inv hbody
  simp only [pyLen, Except.ok.injEq] at h8
  subst h8
  split at hbody
  next hlen =>
    split at hbody
    next hkeys =>
      cases hbody
      obtain ⟨c, t⟩ := ct
      obtain ⟨ns, hmap, hcols, _, _⟩ := buildCols_ok h5
      refine ⟨hlen, first, ks, res, fields, ns, t, h1, h2, h3, h4, hmap, ?_, ?_, h7, hkeys⟩
      · exact hcols
      · exact h5
    next => exact Except.noConfusion hbody
  next => exact Except.noConfusion hbody

/-- C2 witness: the two-point example document normalizes to two rows with
columns `[sid, score]`. -/
theorem normalize_shape_spec_witness :
    exDF.rows.length = [pt1, pt2].length ∧
    ∃ first ks res fields names tids,
      pyIndexNat (.arr [pt1, pt2]) 0 = .ok first ∧
      pyKeys first = .ok ks ∧
      get_results exDescr = .ok res ∧
      pyIter res = .ok fields ∧
      mapE fieldName fields = .ok names ∧
      exDF.columns = (ks.filter (fun k => k ≠ "data")).map JVal.s ++ names ∧
      buildCols ((ks.filter (fun k => k ≠ "data")).map JVal.s) [] fields
        = .ok (exDF.columns, tids) ∧
      mapE (buildPoint tids) [pt1, pt2] = .ok exDF.rows ∧
      allKeysIn exDF.columns exDF.rows = true :=
  normalize_shape_spec exTree exDescr [pt1, pt2] exDF (by decide) (by decide)

/-- C8: when the extracted result-field names contain a duplicate, or collide
with a generic column, schema construction itself fails and `get_data` fails
with that same error — for any points whatsoever, i.e. before any row is
built. -/
theorem duplicate_column_spec :
    ∀ tree root data first ks res fields names,
      submitData tree = .ok data →
      pyIndexNat data 0 = .ok first →
      pyKeys first = .ok ks →
      get_results root = .ok res →
      pyIter res = .ok fields →
      mapE fieldName fields = .ok names →
      (¬ names.Nodup ∨
        ∃ n ∈ names, n ∈ (ks.filter (fun k => k ≠ "data")).map JVal.s) →
      ∃ e, buildCols ((ks.filter (fun k => k ≠ "data")).map JVal.s) [] fields
            = .error e ∧
        get_data tree root = .error e := by
  intro tree root data first ks res fields names hsub h1 h2 h3 h4 hnames hdup
  cases hbc : buildCols ((ks.filter (fun k => k ≠ "data")).map JVal.s) [] fields with
  | ok ct =>
    obtain ⟨c, t⟩ := ct
    obtain ⟨ns, hmap, _, hnd, hfresh⟩ := buildCols_ok hbc
    rw [hnames] at hmap
    cases hmap
    rcases hdup with hdup | ⟨n, hn, hmem⟩
    · exact absurd hnd hdup
    · exact absurd hmem (hfresh n hn)
  | error e =>
    refine ⟨e, rfl, ?_⟩
    unfold get_data
    rw [hsub]
    unfold getDataBody
    simp only [h1, ok_bind, h2, h3, h4, hbc, error_bind, map_error]

/-- C8 witness: two result fields both named `score` make `get_data` fail with
the duplicate-name assertion. -/
theorem duplicate_column_spec_witness :
    ∃ e, buildCols ((["sid", "data"].filter (fun k => k ≠ "data")).map JVal.s) []
          [.obj [("tid", .i 1), ("name", .s "score")],
           .obj [("tid", .i 2), ("name", .s "score")]] = .error e ∧
      get_data dupTree dupDescr = .error e :=
  duplicate_column_spec dupTree dupDescr (.arr [pt1]) pt1 ["sid", "data"]
    (.arr [.obj [("tid", .i 1), ("name", .s "score")],
           .obj [("tid", .i 2), ("name", .s "score")]])
    [.obj [("tid", .i 1), ("name", .s "score")],
     .obj [("tid", .i 2), ("name", .s "score")]]
    [.s "score", .s "score"]
    (by decide) (by decide) (by decide) (by decide) (by decide) (by decide)
    (Or.inl (by decide))

/-- C9: an entry whose `tid` is not declared raises the lookup `KeyError` (not a
silent drop); a value wrapper with `≠ 1` variants fails the arity assertion; a
single-variant wrapper assigns that value to the column named by the `tid`'s
definition; and any point whose entries fail makes the whole `get_data` fail. -/
theorem data_entry_spec :
    (∀ tids point col tid, pyIndex col "tid" = .ok tid → hashable tid = true →
      tids.lookup tid = none →
      processEntry tids point col = .error (.keyError tid)) ∧
    (∀ tids point col tid colName v n, pyIndex col "tid" = .ok tid →
      hashable tid = true → tids.lookup tid = some colName →
      pyIndex col "value" = .ok v → pyLen v = .ok n → n ≠ 1 →
      processEntry tids point col = .error .assertionError) ∧
    (∀ tids point col tid colName k val, pyIndex col "tid" = .ok tid →
      hashable tid = true → tids.lookup tid = some colName →
      hashable colName = true → pyIndex col "value" = .ok (.obj [(k, val)]) →
      processEntry tids point col = .ok (pyDictSet point colName val)) ∧
    (∀ tree root data cols tids first ks res fields pts dp e,
      submitData tree = .ok data →
      pyIndexNat data 0 = .ok first →
      pyKeys first = .ok ks →
      get_results root = .ok res →
      pyIter res = .ok fields →
      buildCols ((ks.filter (fun k => k ≠ "data")).map JVal.s) [] fields
        = .ok (cols, tids) →
      pyIter data = .ok pts →
      dp ∈ pts → buildPoint tids dp = .error e →
      ∃ e', get_data tree root = .error e') := by
  refine ⟨?_, ?_, ?_, ?_⟩
  · intro tids point col tid htid hh hlk
    simp [processEntry, htid, hh, hlk]
  · intro tids point col tid colName v n htid hh hlk hv hn hne
    simp [processEntry, htid, hh, hlk, hv, hn, hne]
  · intro tids point col tid colName k val htid hh hlk hhn hv
    simp [processEntry, htid, hh, hlk, hv, pyLen, pyValues, foldE, hhn]
  · intro tree root data cols tids first ks res fields pts dp e
    intro hsub h1 h2 h3 h4 hbc h5 hdp herr
    obtain ⟨e', hmap⟩ := mapE_error_of_mem hdp herr
    refine ⟨e', ?_⟩
    unfold get_data
    rw [hsub]
    unfold getDataBody
    simp only [h1, ok_bind, h2, h3, h4, hbc, h5, hmap, error_bind, map_error]

/-- C9 witness: an entry referencing the undeclared `tid = 5` raises the
`KeyError` carrying that tid. -/
theorem data_entry_spec_witness :
    processEntry [] [] (.obj [("tid", .i 5)]) = .error (.keyError (.i 5)) :=
  data_entry_spec.1 [] [] (.obj [("tid", .i 5)]) (.i 5) (by decide) (by decide)
    (by decide)

end Pcba
